/-
Verification of the trip-correlation engine (`lambda2.py`) and the daily KPI
batch job (`glue_scripts.py`) of the real-time trip-processing repository.

The Python code is shallowly embedded:
* DynamoDB items (Python dicts of scalar values) become association lists
  `Item = List (String × DVal)` with Python-dict update semantics (`dset`
  replaces the value in place for an existing key, appends otherwise;
  `dget` is first-match lookup — keys are unique in a Python dict).
* `Decimal` values become `ℚ`.
* Effectful calls (`datetime.utcnow()`, `uuid.uuid4()`, DynamoDB
  queries/puts/updates) become explicit parameters / response oracles.
-/
import Mathlib

namespace TripProc

/-- Scalar values stored in an item: the types produced by the stream
unmarshalling loop in `lambda2.py` (`S` → str, `N` → Decimal, `BOOL` → bool,
`NULL` → None). `Decimal` is modelled by `ℚ`. -/
inductive DVal where
  | str (s : String)
  | num (q : ℚ)
  | boolV (b : Bool)
  | null
deriving DecidableEq, Repr

/-- A Python dict of scalar values, as an insertion-ordered association list
with unique keys (Python dicts preserve insertion order). -/
abbrev Item := List (String × DVal)

/-- Python dict read `d.get(k)` / `d[k]`: first (only) binding of `k`. -/
def dget : Item → String → Option DVal
  | [], _ => none
  | p :: t, k => if p.1 = k then some p.2 else dget t k

/-- Python `k in d`. -/
def hasKey (it : Item) (k : String) : Bool :=
  (dget it k).isSome

/-- Python dict write `d[k] = v`: replace in place if the key exists
(keeping its position), append at the end otherwise. -/
def dset : Item → String → DVal → Item
  | [], k, v => [(k, v)]
  | p :: t, k, v => if p.1 = k then (k, v) :: t else p :: dset t k v

theorem dget_dset_self (it : Item) (k : String) (v : DVal) :
    dget (dset it k v) k = some v := by
  induction it with
  | nil => simp [dset, dget]
  | cons p t ih =>
    by_cases hp : p.1 = k
    · simp [dset, hp, dget]
    · simp [dset, hp, dget, ih]

theorem dget_dset_ne (it : Item) {k k2 : String} (v : DVal) (h : k2 ≠ k) :
    dget (dset it k v) k2 = dget it k2 := by
  have h' : ¬ k = k2 := fun hh => h hh.symm
  induction it with
  | nil => simp [dset, dget, h']
  | cons p t ih =>
    by_cases hp : p.1 = k
    · have hpk2 : ¬ p.1 = k2 := by rw [hp]; exact h'
      simp [dset, hp, dget, h', hpk2]
    · by_cases hp2 : p.1 = k2
      · simp [dset, hp, dget, hp2, h]
      · simp [dset, hp, dget, hp2, ih]

theorem dget_eq_none_iff (it : Item) (k : String) :
    dget it k = none ↔ ∀ p ∈ it, p.1 ≠ k := by
  induction it with
  | nil => simp [dget]
  | cons p t ih =>
    by_cases hp : p.1 = k
    · simp [dget, hp]
    · simp [dget, hp, ih]

theorem dget_some_mem {it : Item} {k : String} {v : DVal}
    (h : dget it k = some v) : (k, v) ∈ it := by
  induction it with
  | nil => simp [dget] at h
  | cons p t ih =>
    obtain ⟨a, b⟩ := p
    by_cases hp : a = k
    · simp [dget, hp] at h
      subst hp
      subst h
      exact List.mem_cons_self _ _
    · simp [dget, hp] at h
      exact List.mem_cons_of_mem _ (ih h)

/-! ### String-prefix helpers

The collision rule of `create_completed_trip` renames keys by prepending
the literal `"end_"`; these lemmas let proofs discriminate renamed keys. -/

theorem data_append (a b : String) : (a ++ b).data = a.data ++ b.data := by
  cases a
  cases b
  rfl

theorem end_append_data (x : String) :
    ("end_" ++ x).data = 'e' :: 'n' :: 'd' :: '_' :: x.data := by
  rw [data_append]
  rfl

/-- A key whose first character is not `e` is never a renamed (`end_`) key. -/
theorem ne_end_append (k : String) (h : k.data.head? ≠ some 'e') (x : String) :
    k ≠ "end_" ++ x := by
  intro he
  apply h
  rw [he, end_append_data]
  rfl

theorem end_append_inj {a b : String} (h : "end_" ++ a = "end_" ++ b) : a = b := by
  have hd : ("end_" ++ a).data = ("end_" ++ b).data := by rw [h]
  rw [end_append_data, end_append_data] at hd
  simp only [List.cons.injEq, true_and] at hd
  exact congrArg String.mk hd

/-- Model of Python `str.startswith`, on the underlying character lists. -/
def strStartsWith (s p : String) : Bool :=
  p.data.isPrefixOf s.data

/-! ### The merge operation (`create_completed_trip`, lambda2.py lines 66–109)

`datetime.utcnow().isoformat()` and `str(uuid.uuid4())` are passed in as the
explicit parameters `nowIso` and `freshUuid`. -/

/-- Keys excluded from both copy loops
(`['PK', 'SK', 'status', 'processing_timestamp_lambda1']`). -/
def startExcluded : List String := ["PK", "SK", "status", "processing_timestamp_lambda1"]

/-- Keys exempt from collision renaming (`['trip_id', 'data_type']`). -/
def renameExempt : List String := ["trip_id", "data_type"]

/-- Rendering of a value inside an f-string (used for the completed `SK`).
Numbers are rendered through `ℚ`'s `toString` as a model of `str(Decimal)`. -/
def renderDVal : DVal → String
  | .str s => s
  | .num q => toString q
  | .boolV b => if b then "True" else "False"
  | .null => "None"

/-- The completed sequence key:
`f"COMPLETED#{end_event.get('dropoff_datetime', datetime.utcnow().isoformat())}"`. -/
def completedSK (end_event : Item) (nowIso : String) : String :=
  "COMPLETED#" ++ (match dget end_event "dropoff_datetime" with
    | some v => renderDVal v
    | none => nowIso)

/-- The dict literal `completed_trip = { ... }` built first (lines 83–90). -/
def mergeBase (start_event end_event : Item) (nowIso freshUuid : String) : Item :=
  [("PK", (dget start_event "PK").getD DVal.null),
   ("SK", DVal.str (completedSK end_event nowIso)),
   ("trip_id", (dget start_event "PK").getD DVal.null),
   ("status", DVal.str "completed"),
   ("processing_timestamp_lambda2", DVal.str nowIso),
   ("correlation_id", DVal.str freshUuid)]

/-- One iteration of the start-event copy loop (lines 93–95). -/
def startStep (acc : Item) (p : String × DVal) : Item :=
  if p.1 ∈ startExcluded then acc else dset acc p.1 p.2

/-- One iteration of the end-event copy loop with collision renaming
(lines 98–104). -/
def endStep (acc : Item) (p : String × DVal) : Item :=
  if p.1 ∈ startExcluded then acc
  else if hasKey acc p.1 = true ∧ p.1 ∉ renameExempt then
    dset acc ("end_" ++ p.1) p.2
  else dset acc p.1 p.2

/-- `create_completed_trip(start_event, end_event)`. -/
def create_completed_trip (start_event end_event : Item) (nowIso freshUuid : String) : Item :=
  dset
    (end_event.foldl endStep
      (start_event.foldl startStep (mergeBase start_event end_event nowIso freshUuid)))
    "data_type" (DVal.str "completed_trip")

/-! ### Lemmas about the two copy loops -/

/-- The start-copy loop leaves a key alone if every entry of the list either
is excluded from the copy or has a different key. -/
theorem startFold_pres (l : Item) (init : Item) (K : String)
    (h : ∀ p ∈ l, p.1 ∈ startExcluded ∨ p.1 ≠ K) :
    dget (l.foldl startStep init) K = dget init K := by
  induction l generalizing init with
  | nil => rfl
  | cons p t ih =>
    have hp := h p (by simp)
    have ht : ∀ q ∈ t, q.1 ∈ startExcluded ∨ q.1 ≠ K :=
      fun q hq => h q (List.mem_cons_of_mem _ hq)
    rw [List.foldl_cons, ih _ ht]
    rcases hp with hp | hp
    · simp [startStep, hp]
    · by_cases hex : p.1 ∈ startExcluded
      · simp [startStep, hex]
      · simp [startStep, hex, dget_dset_ne init p.2 (fun hh => hp hh.symm)]

/-- After the start-copy loop, a non-excluded entry of the (unique-key) start
event is present with its own value. -/
theorem startFold_mem (l : Item) (init : Item) (K : String) (v : DVal)
    (hnd : (l.map Prod.fst).Nodup) (hm : (K, v) ∈ l) (hK : K ∉ startExcluded) :
    dget (l.foldl startStep init) K = some v := by
  obtain ⟨l1, l2, rfl⟩ := List.append_of_mem hm
  have hnd2 : K ∉ (l1.map Prod.fst) ++ (l2.map Prod.fst) := by
    have h2 := hnd
    rw [List.map_append, List.map_cons] at h2
    simpa using (List.nodup_cons.mp (List.nodup_middle.mp h2)).1
  have hK2 : ∀ p ∈ l2, p.1 ∈ startExcluded ∨ p.1 ≠ K := by
    intro p hp
    right
    intro he
    exact hnd2 (List.mem_append_right _ (he ▸ List.mem_map_of_mem Prod.fst hp))
  rw [List.foldl_append, List.foldl_cons]
  rw [startFold_pres _ _ _ hK2]
  have : startStep (l1.foldl startStep init) (K, v) = dset (l1.foldl startStep init) K v := by
    simp [startStep, hK]
  rw [this, dget_dset_self]

/-- The end-copy loop preserves an already-present binding of `K`, provided
`K` is not rename-exempt and no entry of the list renames onto `K`. -/
theorem endFold_keeps (l : Item) (init : Item) (K : String) (v : DVal)
    (h0 : dget init K = some v)
    (hK : K ∉ renameExempt)
    (hend : ∀ p ∈ l, "end_" ++ p.1 ≠ K) :
    dget (l.foldl endStep init) K = some v := by
  induction l generalizing init with
  | nil => exact h0
  | cons p t ih =>
    have hp := hend p (by simp)
    have ht : ∀ q ∈ t, "end_" ++ q.1 ≠ K :=
      fun q hq => hend q (List.mem_cons_of_mem _ hq)
    rw [List.foldl_cons]
    apply ih _ _ ht
    by_cases hex : p.1 ∈ startExcluded
    · simpa [endStep, hex] using h0
    · by_cases hcol : hasKey init p.1 = true ∧ p.1 ∉ renameExempt
      · simpa [endStep, hex, hcol, dget_dset_ne init p.2 (fun hh => hp hh.symm)] using h0
      · have hne : p.1 ≠ K := by
          intro he
          apply hcol
          subst he
          exact ⟨by simp [hasKey, h0], hK⟩
        simpa [endStep, hex, hcol, dget_dset_ne init p.2 (fun hh => hne hh.symm)] using h0

/-- The end-copy loop leaves `K` absent if it is absent initially and no
entry writes it (directly or via renaming). -/
theorem endFold_none (l : Item) (init : Item) (K : String)
    (h0 : dget init K = none)
    (h : ∀ p ∈ l, p.1 ∈ startExcluded ∨ (p.1 ≠ K ∧ "end_" ++ p.1 ≠ K)) :
    dget (l.foldl endStep init) K = none := by
  induction l generalizing init with
  | nil => exact h0
  | cons p t ih =>
    have hp := h p (by simp)
    have ht : ∀ q ∈ t, q.1 ∈ startExcluded ∨ (q.1 ≠ K ∧ "end_" ++ q.1 ≠ K) :=
      fun q hq => h q (List.mem_cons_of_mem _ hq)
    rw [List.foldl_cons]
    apply ih _ _ ht
    rcases hp with hp | ⟨hp1, hp2⟩
    · simpa [endStep, hp] using h0
    · by_cases hex : p.1 ∈ startExcluded
      · simpa [endStep, hex] using h0
      · by_cases hcol : hasKey init p.1 = true ∧ p.1 ∉ renameExempt
        · simpa [endStep, hex, hcol, dget_dset_ne init p.2 (fun hh => hp2 hh.symm)] using h0
        · simpa [endStep, hex, hcol, dget_dset_ne init p.2 (fun hh => hp1 hh.symm)] using h0

/-! ### Counterpart locator (`find_counterpart_event`, lambda2.py lines 27–63)

The DynamoDB query is replaced by its response: `.ok items` for a successful
query (possibly empty) and `.error ()` for a raised exception (store
unavailable, malformed request, ...), which the Python code catches. -/

/-- `counterpart_data_type = 'trip_end' if data_type == 'trip_start' else 'trip_start'`. -/
def counterpartType (data_type : String) : String :=
  if data_type = "trip_start" then "trip_end" else "trip_start"

/-- `sk_prefix = f"RAW#{counterpart_data_type}#"`. -/
def skPrefixFor (data_type : String) : String :=
  "RAW#" ++ counterpartType data_type ++ "#"

/-- `find_counterpart_event(trip_id, data_type)` given the query response.
On success it returns `response['Items'][0]` if any; on a raised exception it
logs and returns `None`. -/
def find_counterpart_event (trip_id : Option String) (data_type : String)
    (queryResult : Except Unit (List Item)) : Option Item :=
  match queryResult with
  | .ok items => items.head?
  | .error _ => none

/-! ### Completion writer (`put_item_with_retry`, lambda2.py lines 145–166) -/

/-- Kinds of store-write errors distinguished by the spec; the Python code
catches both with the same bare `except Exception`. -/
inductive PutErr where
  | transient
  | validation
deriving DecidableEq, Repr

/-- The retry loop body: `putResp i` is the outcome of the `i`-th
`table.put_item` attempt; the fuel is `max_retries - retry_count`.
Returns (success flag, number of attempts made). -/
def putGo (putResp : Nat → Except PutErr Unit) : Nat → Nat → Bool × Nat
  | i, 0 => (false, i)
  | i, fuel + 1 =>
    match putResp i with
    | .ok _ => (true, i + 1)
    | .error _ => putGo putResp (i + 1) fuel

/-- `put_item_with_retry(item, max_retries=3)`: up to `maxRetries` put
attempts, catching every exception and retrying; returns `False` once
`retry_count` reaches the ceiling. (For `max_retries = 0` the Python loop
body never runs and the function falls through returning `None`; the single
call site always uses the default of 3.) -/
def put_item_with_retry (putResp : Nat → Except PutErr Unit) (maxRetries : Nat) : Bool × Nat :=
  putGo putResp 0 maxRetries

theorem putGo_succ (putResp : Nat → Except PutErr Unit) (i fuel : Nat) :
    putGo putResp i (fuel + 1) =
      (match putResp i with
       | .ok _ => (true, i + 1)
       | .error _ => putGo putResp (i + 1) fuel) := rfl

/-! ### Status marking and the store model
(`update_event_status`, lambda2.py lines 112–142, and the completion block of
`lambda_handler`, lines 244–253)

The DynamoDB table is a list of items addressed by the key pair
`(PK, SK)`; `put_item` is an upsert replacing the whole item at its key, and
`update_item` with `SET` updates the named attributes of the item at the key,
creating the item when absent (DynamoDB update semantics). -/

abbrev Store := List Item

/-- Point read at (pk, sk): first item in store order with that key. -/
def storeGet : Store → Option DVal → Option DVal → Option Item
  | [], _, _ => none
  | it :: t, pk, sk =>
    if dget it "PK" = pk ∧ dget it "SK" = sk then some it else storeGet t pk sk

/-- `table.put_item(Item=item)`: replace any item with the same key. -/
def putItem (st : Store) (item : Item) : Store :=
  item :: st.filter (fun it =>
    !(decide (dget it "PK" = dget item "PK") && decide (dget it "SK" = dget item "SK")))

/-- The `SET #status = :new_status, processed_at = :processed_at` update. -/
def updItem (it : Item) (newStatus nowIso : String) : Item :=
  dset (dset it "status" (DVal.str newStatus)) "processed_at" (DVal.str nowIso)

/-- `update_event_status(item, new_status)`: reads `item['PK']`/`item['SK']`
(a missing key raises inside the try and yields `False`), then issues the
update; `netOk = false` models a raised store exception, also caught and
turned into `False`. Returns the store after the call and the Boolean the
function returns. -/
def update_event_status (st : Store) (item : Item) (netOk : Bool)
    (newStatus nowIso : String) : Store × Bool :=
  match dget item "PK", dget item "SK" with
  | some pk, some sk =>
    if netOk then
      match storeGet st (some pk) (some sk) with
      | some found => (putItem st (updItem found newStatus nowIso), true)
      | none =>
        (putItem st [("PK", pk), ("SK", sk),
                     ("status", DVal.str newStatus),
                     ("processed_at", DVal.str nowIso)], true)
    else (st, false)
  | _, _ => (st, false)

/-- Store operations issued by the engine, for observing which calls happen. -/
inductive StoreOp where
  | query (pk : Option String) (skPref : String)
  | putOp (item : Item)
  | updateOp (pk sk : Option DVal) (newStatus : String)
deriving DecidableEq, Repr

/-- Whether an operation is a status-marking update. -/
def isUpdate : StoreOp → Bool
  | .updateOp _ _ _ => true
  | _ => false

/-- The completion block of `lambda_handler` (lines 244–253): write the
completed trip with retry; only on success mark both source events
(best-effort, each outcome ignored). Returns the final store and the list of
store operations issued, in order. -/
def completionPhase (st : Store) (event_item counterpart completed : Item)
    (putResp : Nat → Except PutErr Unit) (updOk1 updOk2 : Bool) (nowIso : String) :
    Store × List StoreOp :=
  let pr := put_item_with_retry putResp 3
  let putOps := List.replicate pr.2 (StoreOp.putOp completed)
  if pr.1 then
    let st1 := putItem st completed
    let r1 := update_event_status st1 event_item updOk1 "processed_by_matcher" nowIso
    let r2 := update_event_status r1.1 counterpart updOk2 "processed_by_matcher" nowIso
    (r2.1, putOps ++
      [StoreOp.updateOp (dget event_item "PK") (dget event_item "SK") "processed_by_matcher",
       StoreOp.updateOp (dget counterpart "PK") (dget counterpart "SK") "processed_by_matcher"])
  else (st, putOps)

/-! ### Stream dispatcher (`lambda_handler`, lambda2.py lines 169–260) -/

/-- A DynamoDB-typed attribute value of a stream `NewImage`
(`{'S': ...}`, `{'N': ...}`, `{'BOOL': ...}`, `{'NULL': ...}`, or an
attribute type the unmarshalling loop does not handle). -/
inductive AttrVal where
  | S (s : String)
  | N (q : ℚ)
  | BOOL (b : Bool)
  | NULL
  | other
deriving DecidableEq, Repr

/-- A `NewImage`: an attribute-typed map. -/
abbrev AttrItem := List (String × AttrVal)

/-- First-match lookup in a `NewImage`. -/
def aget : AttrItem → String → Option AttrVal
  | [], _ => none
  | p :: t, k => if p.1 = k then some p.2 else aget t k

/-- `img.get(k, {}).get('S')`: the string value if the attribute exists and
is string-typed, `None` otherwise. -/
def attrS : Option AttrVal → Option String
  | some (.S s) => some s
  | _ => none

/-- The unmarshalling loop (lines 217–228) building `event_item` from the
`NewImage`: `S`/`N`/`BOOL`/`NULL` attributes are converted, others skipped. -/
def toEventItem (img : AttrItem) : Item :=
  img.foldl (fun acc p =>
    match p.2 with
    | .S s => dset acc p.1 (DVal.str s)
    | .N q => dset acc p.1 (DVal.num q)
    | .BOOL b => dset acc p.1 (DVal.boolV b)
    | .NULL => dset acc p.1 DVal.null
    | .other => acc) []

/-- One DynamoDB Stream record as seen by the handler. -/
structure StreamRecord where
  eventName : String
  newImage : Option AttrItem
deriving DecidableEq, Repr

/-- Oracle for the store interactions of one record's processing. -/
structure StoreOracle where
  queryResp : Except Unit (List Item)
  putResp : Nat → Except PutErr Unit
  updOk1 : Bool
  updOk2 : Bool

/-- Role assignment in the handler (lines 237–242): the triggering item is
the start when its `data_type` is `'trip_start'`, otherwise the counterpart
is the start. -/
def assignRoles (data_type : String) (event_item counterpart : Item) : Item × Item :=
  if data_type = "trip_start" then (event_item, counterpart) else (counterpart, event_item)

/-- The merge as invoked from the handler for a triggering event of the given
kind and its located counterpart. -/
def mergeFromTrigger (data_type : String) (event_item counterpart : Item)
    (nowIso freshUuid : String) : Item :=
  create_completed_trip (assignRoles data_type event_item counterpart).1
    (assignRoles data_type event_item counterpart).2 nowIso freshUuid

/-- Processing of one stream record by `lambda_handler` (lines 183–260):
filter non-INSERT records, records without `NewImage`, records whose `SK`
does not start with `RAW#` and records with a missing/unrecognized
`data_type`; then locate the counterpart and, when found, merge and write.
A query issued with `pk = None` always raises at the store (DynamoDB rejects
a null key), which the locator catches, so its response is an error
irrespective of the oracle. Returns the store after the record and the
operations issued for it. -/
def processRecord (st : Store) (oracle : StoreOracle) (nowIso freshUuid : String)
    (r : StreamRecord) : Store × List StoreOp :=
  if r.eventName ≠ "INSERT" then (st, []) else
  match r.newImage with
  | none => (st, [])
  | some img =>
    let pk := attrS (aget img "PK")
    let sk := match aget img "SK" with
      | some (.S s) => s
      | _ => ""
    if ¬ strStartsWith sk "RAW#" then (st, []) else
    match attrS (aget img "data_type") with
    | none => (st, [])
    | some dt =>
      if ¬ (dt = "trip_start" ∨ dt = "trip_end") then (st, []) else
      let event_item := toEventItem img
      let qres : Except Unit (List Item) :=
        match pk with
        | none => .error ()
        | some _ => oracle.queryResp
      let qop := StoreOp.query pk (skPrefixFor dt)
      match find_counterpart_event pk dt qres with
      | none => (st, [qop])
      | some counterpart =>
        let completed := mergeFromTrigger dt event_item counterpart nowIso freshUuid
        let r2 := completionPhase st event_item counterpart completed
          oracle.putResp oracle.updOk1 oracle.updOk2 nowIso
        (r2.1, qop :: r2.2)

/-! ### Daily KPI batch job (`glue_scripts.py`)

`scan_dynamodb_table` scans the whole table (no filter expression), converts
`S` attributes to strings and `N` attributes to numbers, and extracts
`trip_id`, `pickup_datetime` and `fare_amount`; the main script then drops
rows whose `pickup_datetime` fails `pd.to_datetime` or whose `fare_amount`
fails `pd.to_numeric`, groups by the date part of `pickup_datetime` and
computes per-date sum/count/mean/max/min of `fare_amount`.

External parsers are modelled: `pd.to_datetime` accepts ISO-formatted
strings `YYYY-MM-DD...` (the date is the first 10 characters),
`pd.to_numeric` accepts numbers and plain decimal strings. -/

/-- The digits of a decimal numeral as a natural number. -/
def digitsToNat (l : List Char) : Nat :=
  l.foldl (fun n c => 10 * n + (c.toNat - '0'.toNat)) 0

/-- Unsigned decimal-string parser: `123` or `123.45`. -/
def parseUDec (l : List Char) : Option ℚ :=
  let ip := l.takeWhile Char.isDigit
  let rest := l.dropWhile Char.isDigit
  if ip = [] then none
  else match rest with
    | [] => some (digitsToNat ip)
    | '.' :: fp =>
      if fp ≠ [] ∧ fp.all Char.isDigit then
        some ((digitsToNat ip : ℚ) + (digitsToNat fp : ℚ) / ((10 : ℚ) ^ fp.length))
      else none
    | _ => none

/-- Model of `pd.to_numeric(..., errors="coerce")` on a string. -/
def parseDecimal (s : String) : Option ℚ :=
  match s.data with
  | '-' :: t => (parseUDec t).map Neg.neg
  | t => parseUDec t

/-- Model of `pd.to_datetime(..., errors="coerce").dt.date`: an ISO-prefixed
string `YYYY-MM-DD...` yields its first 10 characters, anything else NaT. -/
def isoDatePart (s : String) : Option String :=
  match s.data with
  | y1 :: y2 :: y3 :: y4 :: '-' :: m1 :: m2 :: '-' :: d1 :: d2 :: _ =>
    if (y1.isDigit && y2.isDigit && y3.isDigit && y4.isDigit
        && m1.isDigit && m2.isDigit && d1.isDigit && d2.isDigit) = true then
      some (String.mk [y1, y2, y3, y4, '-', m1, m2, '-', d1, d2])
    else none
  | _ => none

/-- The scan conversion for one attribute (`S` → str, `N` → float, other
types skipped), composed with the column extraction. -/
def glueStr : Option AttrVal → Option String
  | some (.S s) => some s
  | _ => none

/-- The `fare_amount` column after scan conversion and `pd.to_numeric`:
`N` attributes are numbers already, string attributes are coerced. -/
def glueNum : Option AttrVal → Option ℚ
  | some (.N q) => some q
  | some (.S s) => parseDecimal s
  | _ => none

/-- The `pickup_date` of a scanned item, when parseable. -/
def parsePickupDate (img : AttrItem) : Option String :=
  match glueStr (aget img "pickup_datetime") with
  | some s => isoDatePart s
  | none => none

/-- The numeric `fare_amount` of a scanned item, when parseable. -/
def parseFare (img : AttrItem) : Option ℚ :=
  glueNum (aget img "fare_amount")

/-- The (pickup_date, fare_amount) row an item contributes after the two
`dropna` calls, or `none` when the item is dropped. -/
def itemRow (img : AttrItem) : Option (String × ℚ) :=
  match parsePickupDate img, parseFare img with
  | some d, some f => some (d, f)
  | _, _ => none

/-- The rows of the DataFrame surviving both `dropna` calls. -/
def tableRows (items : List AttrItem) : List (String × ℚ) :=
  items.filterMap itemRow

/-- The fares of the group for date `d`. -/
def faresOn (items : List AttrItem) (d : String) : List ℚ :=
  (tableRows items).filterMap (fun r => if r.1 = d then some r.2 else none)

/-- One row of the combined KPI DataFrame. -/
structure KpiRow where
  trip_count : Nat
  total_fare : ℚ
  average_fare : ℚ
  maximum_fare : ℚ
  minimum_fare : ℚ
deriving DecidableEq, Repr

/-- The published aggregates for date `d`: the groupby produces a row
exactly for the dates present, with count/sum/mean/max/min of the group's
fares. -/
def kpiAt (items : List AttrItem) (d : String) : Option KpiRow :=
  match faresOn items d with
  | [] => none
  | x :: t =>
    some ⟨(x :: t).length, (x :: t).sum, (x :: t).sum / ((x :: t).length : ℚ),
          t.foldl max x, t.foldl min x⟩

/-- Whether a stored item is a CompletedRecord (`data_type = 'completed_trip'`,
as written by `create_completed_trip`). -/
def isCompletedItem (img : AttrItem) : Bool :=
  decide (aget img "data_type" = some (AttrVal.S "completed_trip"))

/-! ## Claim theorems -/

/-- A key of the start event that is copied (not excluded), not
rename-exempt, not `data_type` and not a rename target keeps its start value
in the completed record. -/
theorem create_keeps_start_key (s e : Item) (n u : String) (K : String) (v : DVal)
    (hnd : (s.map Prod.fst).Nodup)
    (hv : dget s K = some v)
    (hKs : K ∉ startExcluded)
    (hKr : K ∉ renameExempt)
    (hKd : K ≠ "data_type")
    (hKe : ∀ x, "end_" ++ x ≠ K) :
    dget (create_completed_trip s e n u) K = some v := by
  unfold create_completed_trip
  rw [dget_dset_ne _ _ hKd]
  apply endFold_keeps _ _ _ _ _ hKr (fun p _ => hKe p.1)
  exact startFold_mem _ _ _ _ hnd (dget_some_mem hv) hKs

/-- Claim C2: when the end event carries `dropoff_datetime`, the completed
record's sequence key is `COMPLETED#` followed by exactly that value —
independent of the start event, of the wall clock and of the generated
correlation id, so repeated merges of the same pair yield the same key. -/
theorem claim_C2 (s e : Item) (n u : String) (d : DVal)
    (h : dget e "dropoff_datetime" = some d) :
    dget (create_completed_trip s e n u) "SK"
      = some (DVal.str ("COMPLETED#" ++ renderDVal d)) := by
  unfold create_completed_trip
  rw [dget_dset_ne _ _ (by decide : ("SK" : String) ≠ "data_type")]
  have hsk : completedSK e n = "COMPLETED#" ++ renderDVal d := by
    simp [completedSK, h]
  have hbase : dget (mergeBase s e n u) "SK" = some (DVal.str (completedSK e n)) := by
    simp [mergeBase, dget]
  have hstart : dget (s.foldl startStep (mergeBase s e n u)) "SK"
      = some (DVal.str (completedSK e n)) := by
    rw [startFold_pres]
    · exact hbase
    · intro p hp
      by_cases hps : p.1 = "SK"
      · left; rw [hps]; decide
      · right; exact hps
  rw [endFold_keeps _ _ _ _ hstart (by decide)
    (fun p _ => Ne.symm (ne_end_append "SK" (by decide) p.1)), hsk]

/-- Claim C2 witness: a concrete start/end pair with a dropoff timestamp. -/
theorem claim_C2_witness :
    dget (create_completed_trip
      [("PK", DVal.str "T1"), ("pickup_datetime", DVal.str "2024-05-01T09:00:00")]
      [("PK", DVal.str "T1"), ("dropoff_datetime", DVal.str "2024-05-01T10:00:00")]
      "2024-05-01T10:05:00" "uuid-1") "SK"
      = some (DVal.str ("COMPLETED#" ++ renderDVal (DVal.str "2024-05-01T10:00:00"))) :=
  claim_C2 _ _ _ _ _ (by decide)

/-- The merge as the claimed contract states it: two invocations on the same
start/end inputs produce equal completed records (the wall-clock reading and
the generated uuid are the per-invocation effects). -/
def C3Claim (s e : Item) : Prop :=
  ∀ n1 u1 n2 u2,
    create_completed_trip s e n1 u1 = create_completed_trip s e n2 u2

/-- Claim C3 counterexample: the merge is not deterministic across
invocations — the freshly generated correlation id (and processing
timestamp) differ, so two merges of the same pair give different records. -/
theorem claim_C3_counterexample :
    ¬ C3Claim [("PK", DVal.str "T1")]
      [("PK", DVal.str "T1"), ("dropoff_datetime", DVal.str "2024-05-01T10:00:00")] := by
  intro h
  exact absurd (h "ts" "uuid-a" "ts" "uuid-b") (by decide)

/-- Claim C3 (amended): the merge is a deterministic function of the two
events together with the generated timestamp and correlation id, and is
arrival-order independent: whichever half triggers the handler, the role
assignment passes the same (start, end) pair to the merge, giving an
identical record for fixed generated values. -/
theorem claim_C3_amended (a b : Item) (n u : String) :
    mergeFromTrigger "trip_start" a b n u = mergeFromTrigger "trip_end" b a n u := rfl

/-- The status-collision behaviour the claim states: with `status` on both
events, the end event's status is kept under `end_status` and the record's
own `status` is the literal `completed`. -/
def C4Claim (s e : Item) (n u : String) : Prop :=
  ∀ vs ve, dget s "status" = some vs → dget e "status" = some ve →
    dget (create_completed_trip s e n u) "status" = some (DVal.str "completed") ∧
    dget (create_completed_trip s e n u) "end_status" = some ve

/-- Claim C4 counterexample: `status` is on the exclusion list of the
end-event copy loop, so the end event's status is dropped, not renamed —
no `end_status` field is created. -/
theorem claim_C4_counterexample :
    ¬ C4Claim [("PK", DVal.str "T1"), ("status", DVal.str "in_progress")]
      [("PK", DVal.str "T1"), ("status", DVal.str "arrived")] "ts" "uu" := by
  intro h
  exact absurd ((h (DVal.str "in_progress") (DVal.str "arrived") rfl rfl).2) (by decide)

/-- Claim C4 (amended): when both events carry `status` (and neither carries
a literal `end_status` field), both status values are discarded by the copy
loops' exclusion list — no `end_status` is created — and the completed
record's `status` is the literal `completed`, overriding both inputs. -/
theorem claim_C4_amended (s e : Item) (n u : String) (vs ve : DVal)
    (h1 : dget s "status" = some vs) (h2 : dget e "status" = some ve)
    (h3 : dget s "end_status" = none) (h4 : dget e "end_status" = none) :
    dget (create_completed_trip s e n u) "status" = some (DVal.str "completed") ∧
    dget (create_completed_trip s e n u) "end_status" = none := by
  constructor
  · unfold create_completed_trip
    rw [dget_dset_ne _ _ (by decide : ("status" : String) ≠ "data_type")]
    apply endFold_keeps _ _ _ _ _ (by decide)
      (fun p _ => Ne.symm (ne_end_append "status" (by decide) p.1))
    rw [startFold_pres]
    · simp [mergeBase, dget]
    · intro p hp
      by_cases hps : p.1 = "status"
      · left; rw [hps]; decide
      · right; exact hps
  · unfold create_completed_trip
    rw [dget_dset_ne _ _ (by decide : ("end_status" : String) ≠ "data_type")]
    apply endFold_none
    · rw [startFold_pres]
      · simp [mergeBase, dget]
      · intro p hp
        right
        exact (dget_eq_none_iff s "end_status").mp h3 p hp
    · intro p hp
      by_cases hps : p.1 = "status"
      · left; rw [hps]; decide
      · right
        refine ⟨(dget_eq_none_iff e "end_status").mp h4 p hp, fun hc => hps ?_⟩
        exact end_append_inj (hc.trans (rfl : ("end_status" : String) = "end_" ++ "status"))

/-- Claim C4 witness: concrete events both carrying `status`. -/
theorem claim_C4_amended_witness :
    dget (create_completed_trip
      [("PK", DVal.str "T1"), ("status", DVal.str "in_progress")]
      [("PK", DVal.str "T1"), ("status", DVal.str "arrived")] "ts" "uu") "status"
      = some (DVal.str "completed") ∧
    dget (create_completed_trip
      [("PK", DVal.str "T1"), ("status", DVal.str "in_progress")]
      [("PK", DVal.str "T1"), ("status", DVal.str "arrived")] "ts" "uu") "end_status"
      = none :=
  claim_C4_amended _ _ "ts" "uu" (DVal.str "in_progress") (DVal.str "arrived")
    rfl rfl rfl rfl

/-- The locator contract as claimed: a failed query is reported distinctly
from the not-found outcome. -/
def C5Claim : Prop :=
  ∀ (tid : Option String) (dt : String),
    find_counterpart_event tid dt (Except.error ())
      ≠ find_counterpart_event tid dt (Except.ok [])

/-- Claim C5 counterexample: the bare `except` in `find_counterpart_event`
returns `None` on a failed query — exactly the not-found result. -/
theorem claim_C5_counterexample : ¬ C5Claim := by
  intro h
  exact h (some "T1") "trip_start" rfl

/-- Claim C5 (amended): a failed backing-store query is caught, logged and
conflated with "not found": the locator returns `None` in both cases, and
the caller treats the record as having no counterpart yet. -/
theorem claim_C5_amended (tid : Option String) (dt : String) (err : Unit) :
    find_counterpart_event tid dt (Except.error err) = none ∧
    find_counterpart_event tid dt (Except.ok []) = none :=
  ⟨rfl, rfl⟩

/-- Whether a put attempt succeeded. -/
def isOkResp : Except PutErr Unit → Bool
  | .ok _ => true
  | .error _ => false

/-- The write contract as claimed: at most 3 attempts, and a permanent
validation error is not retried at all (the first attempt is the last). -/
def C7Claim (putResp : Nat → Except PutErr Unit) : Prop :=
  (put_item_with_retry putResp 3).2 ≤ 3 ∧
  (putResp 0 = Except.error PutErr.validation →
    put_item_with_retry putResp 3 = (false, 1))

/-- Claim C7 counterexample: the retry loop catches every exception alike;
a validation error on the first attempt is still retried to the ceiling,
making 3 attempts instead of 1. -/
theorem claim_C7_counterexample :
    ¬ C7Claim (fun _ => Except.error PutErr.validation) := by
  intro h
  exact absurd (h.2 rfl) (by decide)

/-- Claim C7 (amended): the write performs at most 3 store-put attempts and
retries on every store error, transient or permanent, without
discrimination; it returns failure exactly when all 3 attempts error, and
then the full ceiling of 3 attempts was used. -/
theorem claim_C7_amended (putResp : Nat → Except PutErr Unit) :
    (put_item_with_retry putResp 3).2 ≤ 3 ∧
    ((put_item_with_retry putResp 3).1 = false ↔
      isOkResp (putResp 0) = false ∧ isOkResp (putResp 1) = false ∧
      isOkResp (putResp 2) = false) ∧
    ((put_item_with_retry putResp 3).1 = false → (put_item_with_retry putResp 3).2 = 3) := by
  rcases h0 : putResp 0 with u0 | e0 <;> rcases h1 : putResp 1 with u1 | e1 <;>
    rcases h2 : putResp 2 with u2 | e2 <;>
      simp [put_item_with_retry, putGo_succ, putGo, h0, h1, h2, isOkResp]

/-- Claim C7 witness: with transient errors on every attempt, the write
fails after exactly the ceiling of 3 attempts. -/
theorem claim_C7_witness :
    (put_item_with_retry (fun _ => Except.error PutErr.transient) 3).1 = false ∧
    (put_item_with_retry (fun _ => Except.error PutErr.transient) 3).2 = 3 :=
  ⟨(claim_C7_amended (fun _ => Except.error PutErr.transient)).2.1.mpr ⟨rfl, rfl, rfl⟩,
   (claim_C7_amended (fun _ => Except.error PutErr.transient)).2.2
     ((claim_C7_amended (fun _ => Except.error PutErr.transient)).2.1.mpr ⟨rfl, rfl, rfl⟩)⟩

/-- Claim C10: the collision renaming protects only the end side — a start
event carrying `correlation_id` or `processing_timestamp_lambda2` silently
overwrites the freshly generated correlation id and processing timestamp in
the completed record. -/
theorem claim_C10 (s e : Item) (n u : String) (v w : DVal)
    (hnd : (s.map Prod.fst).Nodup)
    (hv : dget s "correlation_id" = some v)
    (hw : dget s "processing_timestamp_lambda2" = some w) :
    dget (create_completed_trip s e n u) "correlation_id" = some v ∧
    dget (create_completed_trip s e n u) "processing_timestamp_lambda2" = some w :=
  ⟨create_keeps_start_key s e n u _ v hnd hv (by decide) (by decide) (by decide)
      (fun x => (ne_end_append "correlation_id" (by decide) x).symm),
   create_keeps_start_key s e n u _ w hnd hw (by decide) (by decide) (by decide)
      (fun x => (ne_end_append "processing_timestamp_lambda2" (by decide) x).symm)⟩

/-- Claim C10 witness: a start event carrying both fields; its values land
in the completed record instead of the generated `uuid-fresh`/`now`. -/
theorem claim_C10_witness :
    dget (create_completed_trip
      [("PK", DVal.str "T1"), ("correlation_id", DVal.str "stale-corr"),
       ("processing_timestamp_lambda2", DVal.str "stale-ts")]
      [("PK", DVal.str "T1")] "now" "uuid-fresh") "correlation_id"
      = some (DVal.str "stale-corr") ∧
    dget (create_completed_trip
      [("PK", DVal.str "T1"), ("correlation_id", DVal.str "stale-corr"),
       ("processing_timestamp_lambda2", DVal.str "stale-ts")]
      [("PK", DVal.str "T1")] "now" "uuid-fresh") "processing_timestamp_lambda2"
      = some (DVal.str "stale-ts") :=
  claim_C10 _ _ "now" "uuid-fresh" _ _ (by decide) rfl rfl

/-- The field-collision policy as the claim states it: the completed record
keeps every copied start field at its own key, and overlays every copied end
field, renamed to `end_*` exactly when the key exists on the start side. -/
def C1Claim (s e : Item) (n u : String) : Prop :=
  (∀ k v, dget s k = some v → k ∉ startExcluded → k ∉ renameExempt →
    dget (create_completed_trip s e n u) k = some v) ∧
  (∀ k v, dget e k = some v → k ∉ startExcluded → k ∉ renameExempt →
    (hasKey s k = true → dget (create_completed_trip s e n u) ("end_" ++ k) = some v) ∧
    (hasKey s k = false → dget (create_completed_trip s e n u) k = some v))

/-- Claim C1 counterexample: renaming writes the literal key `end_<k>`, which
can itself collide with a start field of that name — here the start event's
`end_fare` is overwritten by the renamed end-side `fare`, so not all of the
start event's values survive. -/
theorem claim_C1_counterexample :
    ¬ C1Claim
      [("PK", DVal.str "T1"), ("fare", DVal.str "s1"), ("end_fare", DVal.str "s2")]
      [("PK", DVal.str "T1"), ("fare", DVal.str "s3")] "now" "uuid-1" := by
  intro h
  exact absurd (h.1 "end_fare" (DVal.str "s2") rfl (by decide) (by decide)) (by decide)

/-- Keys the merge handles specially: excluded from the copy loops, exempt
from renaming, or occupied by the generated bookkeeping fields the collision
check also sees. -/
def specialKeys : List String :=
  ["PK", "SK", "status", "processing_timestamp_lambda1",
   "processing_timestamp_lambda2", "trip_id", "data_type", "correlation_id"]

/-- Claim C1 (amended): for ordinary keys — not identity/status bookkeeping,
not generated bookkeeping, and not themselves `end_`-prefixed — the merge
keeps the start event's value at its own key, overlays an end-only field at
its own key, and preserves a colliding end field under the `end_` prefix. -/
theorem claim_C1_amended (s e : Item) (n u : String) (k : String)
    (hs : (s.map Prod.fst).Nodup) (he : (e.map Prod.fst).Nodup)
    (hk : k ∉ specialKeys) (hkpre : ∀ x, k ≠ "end_" ++ x) :
    (∀ v, dget s k = some v → dget (create_completed_trip s e n u) k = some v) ∧
    (∀ v, dget e k = some v → dget s k = none →
      dget (create_completed_trip s e n u) k = some v) ∧
    (∀ vs ve, dget s k = some vs → dget e k = some ve →
      dget (create_completed_trip s e n u) ("end_" ++ k) = some ve) := by
  have hkl : k ≠ "PK" ∧ k ≠ "SK" ∧ k ≠ "status" ∧ k ≠ "processing_timestamp_lambda1" ∧
      k ≠ "processing_timestamp_lambda2" ∧ k ≠ "trip_id" ∧ k ≠ "data_type" ∧
      k ≠ "correlation_id" := by
    simpa [specialKeys] using hk
  obtain ⟨hPK, hSK, hst, hpt1, hpt2, htr, hdt, hcr⟩ := hkl
  have hks : k ∉ startExcluded := by simp [startExcluded, hPK, hSK, hst, hpt1]
  have hkr : k ∉ renameExempt := by simp [renameExempt, htr, hdt]
  have nPK : ¬ ("PK" : String) = k := fun hh => hPK hh.symm
  have nSK : ¬ ("SK" : String) = k := fun hh => hSK hh.symm
  have nst : ¬ ("status" : String) = k := fun hh => hst hh.symm
  have npt2 : ¬ ("processing_timestamp_lambda2" : String) = k := fun hh => hpt2 hh.symm
  have ntr : ¬ ("trip_id" : String) = k := fun hh => htr hh.symm
  have ncr : ¬ ("correlation_id" : String) = k := fun hh => hcr hh.symm
  refine ⟨?_, ?_, ?_⟩
  · intro v hv
    exact create_keeps_start_key s e n u k v hs hv hks hkr hdt
      (fun x => Ne.symm (hkpre x))
  · intro v hv hnone
    unfold create_completed_trip
    rw [dget_dset_ne _ _ hdt]
    obtain ⟨l1, l2, hsplit⟩ := List.append_of_mem (dget_some_mem hv)
    rw [hsplit] at he ⊢
    have hnd2 : k ∉ (l1.map Prod.fst) ++ (l2.map Prod.fst) := by
      have h2 := he
      rw [List.map_append, List.map_cons] at h2
      simpa using (List.nodup_cons.mp (List.nodup_middle.mp h2)).1
    have hk1 : ∀ p ∈ l1, p.1 ≠ k :=
      fun p hp hc => hnd2 (List.mem_append_left _ (hc ▸ List.mem_map_of_mem Prod.fst hp))
    have hk2 : ∀ p ∈ l2, p.1 ≠ k :=
      fun p hp hc => hnd2 (List.mem_append_right _ (hc ▸ List.mem_map_of_mem Prod.fst hp))
    rw [List.foldl_append, List.foldl_cons]
    have hbase : dget (mergeBase s (l1 ++ (k, v) :: l2) n u) k = none := by
      simp [mergeBase, dget, nPK, nSK, nst, npt2, ntr, ncr]
    have hafter : dget (s.foldl startStep (mergeBase s (l1 ++ (k, v) :: l2) n u)) k = none := by
      rw [startFold_pres]
      · exact hbase
      · exact fun p hp => Or.inr ((dget_eq_none_iff s k).mp hnone p hp)
    have hl1 : dget (l1.foldl endStep
        (s.foldl startStep (mergeBase s (l1 ++ (k, v) :: l2) n u))) k = none := by
      apply endFold_none _ _ _ hafter
      exact fun p hp => Or.inr ⟨hk1 p hp, Ne.symm (hkpre p.1)⟩
    have hstep : endStep (l1.foldl endStep
        (s.foldl startStep (mergeBase s (l1 ++ (k, v) :: l2) n u))) (k, v)
        = dset (l1.foldl endStep
            (s.foldl startStep (mergeBase s (l1 ++ (k, v) :: l2) n u))) k v := by
      simp [endStep, hks, hasKey, hl1]
    rw [hstep]
    exact endFold_keeps _ _ _ _ (dget_dset_self _ _ _) hkr
      (fun p _ => Ne.symm (hkpre p.1))
  · intro vs ve hvs hve
    unfold create_completed_trip
    rw [dget_dset_ne _ _ (Ne.symm (ne_end_append "data_type" (by decide) k))]
    obtain ⟨l1, l2, hsplit⟩ := List.append_of_mem (dget_some_mem hve)
    rw [hsplit] at he ⊢
    have hnd2 : k ∉ (l1.map Prod.fst) ++ (l2.map Prod.fst) := by
      have h2 := he
      rw [List.map_append, List.map_cons] at h2
      simpa using (List.nodup_cons.mp (List.nodup_middle.mp h2)).1
    have hk1 : ∀ p ∈ l1, p.1 ≠ k :=
      fun p hp hc => hnd2 (List.mem_append_left _ (hc ▸ List.mem_map_of_mem Prod.fst hp))
    have hk2 : ∀ p ∈ l2, p.1 ≠ k :=
      fun p hp hc => hnd2 (List.mem_append_right _ (hc ▸ List.mem_map_of_mem Prod.fst hp))
    rw [List.foldl_append, List.foldl_cons]
    have hafter : dget (s.foldl startStep (mergeBase s (l1 ++ (k, ve) :: l2) n u)) k
        = some vs :=
      startFold_mem _ _ _ _ hs (dget_some_mem hvs) hks
    have hl1 : dget (l1.foldl endStep
        (s.foldl startStep (mergeBase s (l1 ++ (k, ve) :: l2) n u))) k = some vs :=
      endFold_keeps _ _ _ _ hafter hkr (fun p _ => Ne.symm (hkpre p.1))
    have hstep : endStep (l1.foldl endStep
        (s.foldl startStep (mergeBase s (l1 ++ (k, ve) :: l2) n u))) (k, ve)
        = dset (l1.foldl endStep
            (s.foldl startStep (mergeBase s (l1 ++ (k, ve) :: l2) n u))) ("end_" ++ k) ve := by
      simp [endStep, hks, hkr, hasKey, hl1]
    rw [hstep]
    have hendr : ("end_" ++ k) ∉ renameExempt := by
      have h1 : "end_" ++ k ≠ "trip_id" :=
        fun hc => (ne_end_append "trip_id" (by decide) k) hc.symm
      have h2 : "end_" ++ k ≠ "data_type" :=
        fun hc => (ne_end_append "data_type" (by decide) k) hc.symm
      simp [renameExempt, h1, h2]
    exact endFold_keeps _ _ _ _ (dget_dset_self _ _ _) hendr
      (fun p hp hc => hk2 p hp (end_append_inj hc))

/-- Claim C1 (amended) witness: an ordinary colliding field `fare` and an
end-only field `tip` behave as the amended policy states. -/
theorem claim_C1_amended_witness :
    dget (create_completed_trip
      [("PK", DVal.str "T1"), ("fare", DVal.str "f1")]
      [("PK", DVal.str "T1"), ("fare", DVal.str "f2"), ("tip", DVal.str "t1")]
      "now" "uuid-1") "fare" = some (DVal.str "f1") ∧
    dget (create_completed_trip
      [("PK", DVal.str "T1"), ("fare", DVal.str "f1")]
      [("PK", DVal.str "T1"), ("fare", DVal.str "f2"), ("tip", DVal.str "t1")]
      "now" "uuid-1") "end_fare" = some (DVal.str "f2") ∧
    dget (create_completed_trip
      [("PK", DVal.str "T1"), ("fare", DVal.str "f1")]
      [("PK", DVal.str "T1"), ("fare", DVal.str "f2"), ("tip", DVal.str "t1")]
      "now" "uuid-1") "tip" = some (DVal.str "t1") :=
  ⟨(claim_C1_amended _ _ "now" "uuid-1" "fare" (by decide) (by decide) (by decide)
      (ne_end_append "fare" (by decide))).1 _ rfl,
   (claim_C1_amended _ _ "now" "uuid-1" "fare" (by decide) (by decide) (by decide)
      (ne_end_append "fare" (by decide))).2.2 _ _ rfl rfl,
   (claim_C1_amended _ _ "now" "uuid-1" "tip" (by decide) (by decide) (by decide)
      (ne_end_append "tip" (by decide))).2.1 _ rfl rfl⟩

/-! ## Store lemmas for the completion phase -/

/-- A put makes its item the one read back at its own key. -/
theorem storeGet_putItem_self (st : Store) (it : Item) :
    storeGet (putItem st it) (dget it "PK") (dget it "SK") = some it := by
  simp [storeGet, putItem]

/-- The key-replacement filter of a put does not disturb reads at a key with
a different `SK`. -/
theorem storeGet_filter_keep (st : Store) (it : Item) (pk sk : Option DVal)
    (h : sk ≠ dget it "SK") :
    storeGet (st.filter (fun x =>
      !(decide (dget x "PK" = dget it "PK") && decide (dget x "SK" = dget it "SK")))) pk sk
      = storeGet st pk sk := by
  induction st with
  | nil => rfl
  | cons x t ih =>
    by_cases hx : dget x "PK" = dget it "PK" ∧ dget x "SK" = dget it "SK"
    · have hqx : (!(decide (dget x "PK" = dget it "PK")
          && decide (dget x "SK" = dget it "SK"))) = false := by
        simp [hx.1, hx.2]
      have hcond : ¬ (dget x "PK" = pk ∧ dget x "SK" = sk) := by
        rintro ⟨-, hc2⟩
        exact h (by rw [← hc2]; exact hx.2)
      rw [List.filter_cons, hqx]
      simp only [Bool.false_eq_true, if_false]
      rw [ih, storeGet, if_neg hcond]
    · have hqx : (!(decide (dget x "PK" = dget it "PK")
          && decide (dget x "SK" = dget it "SK"))) = true := by
        rw [not_and_or] at hx
        rcases hx with hx | hx <;> simp [hx]
      rw [List.filter_cons, hqx]
      simp only [if_true]
      rw [storeGet, storeGet, ih]

/-- A put at one key does not disturb reads at a key with a different `SK`. -/
theorem storeGet_putItem_ne (st : Store) (it : Item) (pk sk : Option DVal)
    (h : sk ≠ dget it "SK") :
    storeGet (putItem st it) pk sk = storeGet st pk sk := by
  unfold putItem
  rw [storeGet, if_neg (fun hc => h hc.2.symm)]
  exact storeGet_filter_keep st it pk sk h

/-- The item a point read returns carries the key it was read at. -/
theorem storeGet_key (st : Store) (pk sk : Option DVal) (it : Item)
    (h : storeGet st pk sk = some it) : dget it "PK" = pk ∧ dget it "SK" = sk := by
  induction st with
  | nil => simp [storeGet] at h
  | cons x t ih =>
    by_cases hc : dget x "PK" = pk ∧ dget x "SK" = sk
    · rw [storeGet, if_pos hc] at h
      injection h with h
      subst h
      exact hc
    · rw [storeGet, if_neg hc] at h
      exact ih h

/-- Marking a source event (whatever its outcome) does not disturb reads at
a key with a different `SK`. -/
theorem update_preserves_other (st : Store) (item : Item) (ok : Bool) (ns now : String)
    (pk sk : Option DVal) (h : sk ≠ dget item "SK") :
    storeGet ((update_event_status st item ok ns now).1) pk sk = storeGet st pk sk := by
  cases hP : dget item "PK" with
  | none => simp [update_event_status, hP]
  | some pkv =>
    cases hS : dget item "SK" with
    | none => simp [update_event_status, hP, hS]
    | some skv =>
      cases ok with
      | false => simp [update_event_status, hP, hS]
      | true =>
        cases hF : storeGet st (some pkv) (some skv) with
        | some found =>
          have hsk2 : dget (updItem found ns now) "SK" = some skv := by
            unfold updItem
            rw [dget_dset_ne _ _ (by decide : ("SK" : String) ≠ "processed_at"),
                dget_dset_ne _ _ (by decide : ("SK" : String) ≠ "status")]
            exact (storeGet_key _ _ _ _ hF).2
          simp only [update_event_status, hP, hS, hF, if_true]
          apply storeGet_putItem_ne
          rw [hsk2]
          exact hS ▸ h
        | none =>
          simp only [update_event_status, hP, hS, hF, if_true]
          apply storeGet_putItem_ne
          have hfr : dget [("PK", pkv), ("SK", skv), ("status", DVal.str ns),
              ("processed_at", DVal.str now)] "SK" = some skv := by
            simp [dget]
          rw [hfr]
          exact hS ▸ h

/-- Claim C8: the status marking of the two source events is attempted only
after the completed record was written successfully (the issued operations
are the put attempts followed, on success only, by the two update calls),
and whatever the marking outcomes, the completed record remains stored; on
write failure the store is untouched and no marking is attempted. -/
theorem claim_C8 (st : Store) (ev cp completed : Item)
    (putResp : Nat → Except PutErr Unit) (u1 u2 : Bool) (now : String)
    (h1 : dget completed "SK" ≠ dget ev "SK")
    (h2 : dget completed "SK" ≠ dget cp "SK") :
    ((put_item_with_retry putResp 3).1 = true →
      storeGet (completionPhase st ev cp completed putResp u1 u2 now).1
          (dget completed "PK") (dget completed "SK") = some completed ∧
      (completionPhase st ev cp completed putResp u1 u2 now).2
        = List.replicate (put_item_with_retry putResp 3).2 (StoreOp.putOp completed) ++
          [StoreOp.updateOp (dget ev "PK") (dget ev "SK") "processed_by_matcher",
           StoreOp.updateOp (dget cp "PK") (dget cp "SK") "processed_by_matcher"]) ∧
    ((put_item_with_retry putResp 3).1 = false →
      (completionPhase st ev cp completed putResp u1 u2 now).1 = st ∧
      ∀ op ∈ (completionPhase st ev cp completed putResp u1 u2 now).2,
        isUpdate op = false) := by
  constructor
  · intro hok
    constructor
    · simp only [completionPhase, hok, if_true]
      rw [update_preserves_other _ _ _ _ _ _ _ h2,
          update_preserves_other _ _ _ _ _ _ _ h1,
          storeGet_putItem_self]
    · simp [completionPhase, hok]
  · intro hfail
    constructor
    · simp [completionPhase, hfail]
    · intro op hop
      simp only [completionPhase, hfail, Bool.false_eq_true, if_false] at hop
      rw [List.eq_of_mem_replicate hop]
      rfl

/-- Claim C8 witness: the write succeeds, marking the start event fails
(`u1 = false`), and the completed record is still read back intact. -/
theorem claim_C8_witness :
    storeGet (completionPhase []
      [("PK", DVal.str "T1"), ("SK", DVal.str "RAW#trip_start#t0")]
      [("PK", DVal.str "T1"), ("SK", DVal.str "RAW#trip_end#t1")]
      [("PK", DVal.str "T1"), ("SK", DVal.str "COMPLETED#t1"), ("fare", DVal.str "f1")]
      (fun _ => Except.ok ()) false true "now").1
      (dget [("PK", DVal.str "T1"), ("SK", DVal.str "COMPLETED#t1"),
             ("fare", DVal.str "f1")] "PK")
      (dget [("PK", DVal.str "T1"), ("SK", DVal.str "COMPLETED#t1"),
             ("fare", DVal.str "f1")] "SK")
      = some [("PK", DVal.str "T1"), ("SK", DVal.str "COMPLETED#t1"),
              ("fare", DVal.str "f1")] :=
  ((claim_C8 []
      [("PK", DVal.str "T1"), ("SK", DVal.str "RAW#trip_start#t0")]
      [("PK", DVal.str "T1"), ("SK", DVal.str "RAW#trip_end#t1")]
      [("PK", DVal.str "T1"), ("SK", DVal.str "COMPLETED#t1"), ("fare", DVal.str "f1")]
      (fun _ => Except.ok ()) false true "now" (by decide) (by decide)).1 rfl).1

/-- Claim C6 evaluation: an INSERT record with a `RAW#` sequence key and a
recognized kind but a missing identifier is NOT filtered out before the
correlation stage — the handler proceeds to `find_counterpart_event` and a
counterpart query is issued with a null key (it fails at the store and is
conflated with "no counterpart", so no write follows), even when the oracle
would have returned a counterpart. -/
theorem claim_C6_code_eval :
    processRecord []
      ⟨Except.ok [[("PK", DVal.str "T1"), ("SK", DVal.str "RAW#trip_end#t1")]],
       fun _ => Except.ok (), true, true⟩
      "now" "uuid-1"
      ⟨"INSERT",
       some [("SK", AttrVal.S "RAW#trip_start#2024-05-01T09:00:00"),
             ("data_type", AttrVal.S "trip_start"),
             ("pickup_datetime", AttrVal.S "2024-05-01T09:00:00")]⟩
      = ([], [StoreOp.query none (skPrefixFor "trip_start")]) := rfl

/-- The aggregation input as the claim states it: only CompletedRecord
entries contribute, so filtering the scan to completed items changes no
per-date aggregate. -/
def C9Claim (items : List AttrItem) : Prop :=
  ∀ d, kpiAt items d = kpiAt (items.filter isCompletedItem) d

/-- A raw (not yet completed) trip-start event that carries a parseable
pickup timestamp and a numeric fare, as stored by the ingestion side. -/
def rawStartItem : AttrItem :=
  [("PK", AttrVal.S "T1"), ("SK", AttrVal.S "RAW#trip_start#2024-05-01T09:00:00"),
   ("data_type", AttrVal.S "trip_start"), ("trip_id", AttrVal.S "T1"),
   ("pickup_datetime", AttrVal.S "2024-05-01T09:00:00"),
   ("fare_amount", AttrVal.N 10)]

/-- Claim C9 counterexample: the scan has no filter on record kind, so a raw
trip-start event with `pickup_datetime` and `fare_amount` contributes a full
row to the daily aggregates. -/
theorem claim_C9_counterexample : ¬ C9Claim [rawStartItem] := by
  intro h
  exact absurd (h "2024-05-01") (by decide)

/-- Claim C9 (amended): the aggregation job scans every table entry; the
only filter is field validity — an item without a parseable
`pickup_datetime` or a numeric `fare_amount` contributes nothing, and every
item with both (raw or completed) contributes one row to its date's
aggregates. -/
theorem claim_C9_amended (it : AttrItem) (items : List AttrItem) (d : String) :
    (itemRow it = none → kpiAt (it :: items) d = kpiAt items d) ∧
    (∀ f, itemRow it = some (d, f) →
      (kpiAt (it :: items) d).map KpiRow.trip_count
        = some (((kpiAt items d).map KpiRow.trip_count).getD 0 + 1)) := by
  constructor
  · intro h
    have hrows : tableRows (it :: items) = tableRows items := by
      simp [tableRows, List.filterMap_cons, h]
    unfold kpiAt faresOn
    rw [hrows]
  · intro f h
    have hfares : faresOn (it :: items) d = f :: faresOn items d := by
      simp [faresOn, tableRows, List.filterMap_cons, h]
    cases hfo : faresOn items d with
    | nil => simp [kpiAt, hfares, hfo]
    | cons x t => simp [kpiAt, hfares, hfo]

/-- Claim C9 (amended) witness: the raw trip-start item adds one row to its
pickup date's group. -/
theorem claim_C9_amended_witness :
    (kpiAt [rawStartItem] "2024-05-01").map KpiRow.trip_count
      = some (((kpiAt ([] : List AttrItem) "2024-05-01").map KpiRow.trip_count).getD 0 + 1) :=
  (claim_C9_amended rawStartItem [] "2024-05-01").2 10 (by decide)

end TripProc
